import Mathlib

/-!
Verification development for the httpupgrade transport dialer (dialer.go).

The Go source is shallowly embedded: bytes are modelled as `List Char`
(the wires in scope are ASCII), the underlying duplex connection as the
list of response bytes still readable from it, `bufio.Reader` as an
explicit buffer/stream/size triple, and the fallible operations as
`Except`-returning functions.  Machine-level details that the claims
depend on are kept faithful: `bufio.NewReaderSize` clamps the buffer to a
minimum of 16 bytes, `bufio.ReadLine` returns a full buffer as a line
prefix and pushes a trailing CR back (the CRLF straddle case),
`url.QueryUnescape` returns the empty string together with the error on a
bad escape, and `http.Header.Add` / `Set` canonicalize keys via
`textproto.CanonicalMIMEHeaderKey`.
-/

namespace HttpUpgrade

abbrev Bytes := List Char

/-! ## Go strings / net.url helpers -/

/-- Embeds strings.TrimPrefix(s, "/") as used at dialer.go:90: drop one
leading slash when present. -/
def trimPrefixSlash : List Char → List Char
  | '/' :: rest => rest
  | l => l

/-- Embeds strings.Replace(s, " ", ":", 1) (dialer.go:91): replace the
first space only. -/
def replaceFirstSpace : List Char → List Char
  | [] => []
  | c :: rest => if c = ' ' then ':' :: rest else c :: replaceFirstSpace rest

/-- Embeds strings.Split(s, ":") (dialer.go:92); Split of the empty
string on a nonempty separator is the one-element list [""]. -/
def splitColon : List Char → List (List Char)
  | [] => [[]]
  | c :: rest =>
    if c = ':' then [] :: splitColon rest
    else
      match splitColon rest with
      | [] => [[c]]
      | p :: ps => (c :: p) :: ps

/-- Embeds strings.Cut-like splitting at the first occurrence of `sep`:
`some (before, after)` when present, `none` otherwise. -/
def cutChar (sep : Char) : Bytes → Option (Bytes × Bytes)
  | [] => none
  | c :: rest =>
    if c = sep then some ([], rest)
    else (cutChar sep rest).map (fun p => (c :: p.1, p.2))

def isHexDigit (c : Char) : Bool :=
  c.isDigit || ('a' ≤ c && c ≤ 'f') || ('A' ≤ c && c ≤ 'F')

def hexVal (c : Char) : Nat :=
  if c.isDigit then c.toNat - '0'.toNat
  else if 'a' ≤ c then c.toNat - 'a'.toNat + 10
  else c.toNat - 'A'.toNat + 10

/-- Embeds net/url unescape in query mode: percent-escapes are decoded,
'+' becomes a space, and a malformed escape is an error (`none`). -/
def unescapeAux : List Char → Option (List Char)
  | [] => some []
  | c :: rest =>
    if c = '%' then
      match rest with
      | a :: b :: rest2 =>
        if isHexDigit a && isHexDigit b then
          (unescapeAux rest2).map (fun l => Char.ofNat (16 * hexVal a + hexVal b) :: l)
        else none
      | _ => none
    else if c = '+' then (unescapeAux rest).map (fun l => ' ' :: l)
    else (unescapeAux rest).map (fun l => c :: l)

/-- Embeds url.QueryUnescape (dialer.go:89).  On a malformed escape Go
returns the EMPTY string together with the error, so the Bool is the
success flag and the String is "" on failure. -/
def queryUnescape (s : String) : String × Bool :=
  match unescapeAux s.toList with
  | some l => (l.asString, true)
  | none => ("", false)

/-! ## Request path / opaque computation (dialer.go lines 86-99) -/

/-- Embeds dialer.go lines 86-99: starting from requestURL.Path = `p0`,
compute the final (requestURL.Path, requestURL.Opaque) pair.  The
2-part branch assigns pathTrimmed (the string BEFORE the space
replacement) to Opaque and leaves Path untouched; the 3-part branch
overwrites Path with the first part and joins the last two with ":". -/
def urlPathParts (p0 : String) : String × String :=
  let p := if p0 = "" then "GET" else p0
  let pathUnescape := (queryUnescape p).1
  let pathTrimmed := trimPrefixSlash pathUnescape.toList
  let pathReplace := replaceFirstSpace pathTrimmed
  let pathSplited := splitColon pathReplace
  if pathSplited.length = 2 then
    (p, pathTrimmed.asString)
  else if pathSplited.length = 3 then
    ((pathSplited.getD 0 []).asString,
     (pathSplited.getD 1 []).asString ++ ":" ++ (pathSplited.getD 2 []).asString)
  else (p, "")

/-! ## Header model (net/http Header over net/textproto) -/

def validHeaderFieldChar (c : Char) : Bool :=
  c.isAlphanum || c = '!' || c = '#' || c = '$' || c = '%' || c = '&' ||
  c = Char.ofNat 39 || c = '*' || c = '+' || c = '-' || c = '.' ||
  c = Char.ofNat 94 || c = '_' || c = Char.ofNat 96 || c = '|' || c = Char.ofNat 126

def canonAux : Bool → List Char → List Char
  | _, [] => []
  | up, c :: rest => (if up then c.toUpper else c.toLower) :: canonAux (c = '-') rest

/-- Embeds textproto.CanonicalMIMEHeaderKey: when every byte is a valid
header-field byte the key is rewritten to canonical MIME casing (first
letter and every letter after a hyphen upper-cased, the rest
lower-cased); otherwise the key is returned unchanged. -/
def canonicalMIMEHeaderKey (s : String) : String :=
  if s.toList.all validHeaderFieldChar then (canonAux true s.toList).asString else s

/-- Header sets are ordered association lists from key to value list,
mirroring textproto.MIMEHeader / http.Header contents. -/
abbrev Header := List (String × List String)

def headerAddCanon : Header → String → String → Header
  | [], k, v => [(k, [v])]
  | (k2, vs) :: rest, k, v =>
    if k2 = k then (k2, vs ++ [v]) :: rest
    else (k2, vs) :: headerAddCanon rest k v

/-- Embeds http.Header.Add: the key is MIME-canonicalized, then the value
is appended to that key's list. -/
def headerAdd (h : Header) (k v : String) : Header :=
  headerAddCanon h (canonicalMIMEHeaderKey k) v

def headerSetCanon : Header → String → String → Header
  | [], k, v => [(k, [v])]
  | (k2, vs) :: rest, k, v =>
    if k2 = k then (k, [v]) :: rest
    else (k2, vs) :: headerSetCanon rest k v

/-- Embeds http.Header.Set: the key is MIME-canonicalized, then the value
list for that key is replaced by the single value. -/
def headerSet (h : Header) (k v : String) : Header :=
  headerSetCanon h (canonicalMIMEHeaderKey k) v

/-- Embeds http.Header.Get: lookup under the MIME-canonical key, first
value or "". -/
def headerGet (h : Header) (k : String) : String :=
  match h.find? (fun kv => kv.1 == canonicalMIMEHeaderKey k) with
  | some (_, v :: _) => v
  | _ => ""

/-- Embeds dialer.go lines 78-84: the upgrade request's header set is
built by http.Header.Add of every configured (key, value) pair in order,
followed by http.Header.Set of Connection and Upgrade. -/
def buildHeaders (cfg : List (String × String)) : Header :=
  let h := cfg.foldl (fun h kv => headerAdd h kv.1 kv.2) []
  headerSet (headerSet h "Connection" "upgrade") "Upgrade" "websocket"

/-- Embeds strings.ToLower as used at dialer.go:35-36 (ASCII wires). -/
def toLowerStr (s : String) : String := (s.toList.map Char.toLower).asString

/-! ## bufio.Reader model

The underlying connection is the list of bytes still deliverable to reads
(a single fully-available segment).  A fill reads from the connection
into the remaining buffer space, a connection read returns at most the
requested count. -/

structure BufReader where
  buf : Bytes
  conn : Bytes
  size : Nat
deriving DecidableEq, Repr

instance {ε α : Type} [DecidableEq ε] [DecidableEq α] : DecidableEq (Except ε α)
  | .error a, .error b =>
    match decEq a b with
    | isTrue h => isTrue (by rw [h])
    | isFalse h => isFalse fun hc => h (Except.error.inj hc)
  | .error _, .ok _ => isFalse fun hc => Except.noConfusion hc
  | .ok _, .error _ => isFalse fun hc => Except.noConfusion hc
  | .ok a, .ok b =>
    match decEq a b with
    | isTrue h => isTrue (by rw [h])
    | isFalse h => isFalse fun hc => h (Except.ok.inj hc)

inductive PErr where
  | eof
  | malformedStatus
  | malformedHeader
  | fuel
deriving DecidableEq, Repr

/-- Drops one trailing CR, as bufio.ReadLine does on the segment that
ends at the newline. -/
def stripCR (l : Bytes) : Bytes :=
  match l.getLast? with
  | some c => if c = '\r' then l.dropLast else l
  | none => l

/-- Embeds one textproto line read over bufio (ReadSlice / ReadLine /
readLineSlice combined): search the buffer for a newline; on a full
buffer without one, hand the buffer back as a consumed prefix, pushing a
trailing CR back into the buffer (bufio.ReadLine's CRLF straddle case);
otherwise fill from the connection, one read of at most the free buffer
space.  EOF before a newline is a read error. -/
def readLineAux : Nat → Bytes → BufReader → (Except PErr Bytes) × BufReader
  | 0, _, r => (.error .fuel, r)
  | Nat.succ fuel, acc, r =>
    match cutChar '\n' r.buf with
    | some (pre, post) => (.ok (acc ++ stripCR pre), { r with buf := post })
    | none =>
      if r.size ≤ r.buf.length then
        if r.buf.getLast? = some '\r' then
          readLineAux fuel (acc ++ r.buf.dropLast) { r with buf := ['\r'] }
        else
          readLineAux fuel (acc ++ r.buf) { r with buf := [] }
      else if r.conn.isEmpty then (.error .eof, r)
      else
        let k := r.size - r.buf.length
        readLineAux fuel acc { r with buf := r.buf ++ r.conn.take k, conn := r.conn.drop k }

def readLine (r : BufReader) : (Except PErr Bytes) × BufReader :=
  readLineAux (2 * (r.conn.length + r.buf.length) + 8) [] r

/-! ## http.ReadResponse model (dialer.go:30) -/

def isDigits (l : Bytes) : Bool := !l.isEmpty && l.all Char.isDigit

/-- Embeds http.ParseHTTPVersion on the proto part of the status line. -/
def parseHTTPVersionOK (proto : Bytes) : Bool :=
  match proto with
  | 'H' :: 'T' :: 'T' :: 'P' :: '/' :: rest =>
    match cutChar '.' rest with
    | some (maj, mi) => isDigits maj && isDigits mi
    | none => false
  | _ => false

/-- Embeds the status-line parse of http.ReadResponse: cut on the first
space into proto and status text, require a 3-digit status code and a
well-formed HTTP version; the Status field is the text after the
proto. -/
def readStatusLine (r : BufReader) : (Except PErr (String × String)) × BufReader :=
  match readLine r with
  | (.error e, r2) => (.error e, r2)
  | (.ok line, r2) =>
    match cutChar ' ' line with
    | none => (.error .malformedStatus, r2)
    | some (proto, rest) =>
      let status := rest.dropWhile (fun c => c = ' ')
      let code := match cutChar ' ' status with
                  | none => status
                  | some (c, _) => c
      if code.length = 3 && isDigits code && parseHTTPVersionOK proto then
        (.ok (proto.asString, status.asString), r2)
      else (.error .malformedStatus, r2)

/-- Embeds one textproto MIME header line: key before the first colon
(must be nonempty and space-free), value with leading space and tab
trimmed. -/
def parseHeaderLine (l : Bytes) : Option (String × String) :=
  match cutChar ':' l with
  | none => none
  | some (k, v) =>
    if k.isEmpty || k.any (fun c => c = ' ') then none
    else some (k.asString, (v.dropWhile (fun c => c = ' ' || c = Char.ofNat 9)).asString)

def readHeadersAux : Nat → Header → BufReader → (Except PErr Header) × BufReader
  | 0, _, r => (.error .fuel, r)
  | Nat.succ fuel, acc, r =>
    match readLine r with
    | (.error e, r2) => (.error e, r2)
    | (.ok line, r2) =>
      if line.isEmpty then (.ok acc, r2)
      else
        match parseHeaderLine line with
        | none => (.error .malformedHeader, r2)
        | some (k, v) => readHeadersAux fuel (headerAddCanon acc (canonicalMIMEHeaderKey k) v) r2

structure Response where
  proto : String
  status : String
  header : Header
deriving DecidableEq, Repr

/-- Embeds http.ReadResponse for a headers-only read (a 101 reply implies
no body framing, and response bodies are lazy in Go anyway): parse the
status line, then MIME headers until the blank line; whatever has been
filled past the blank line stays buffered in the reader. -/
def readResponse (r : BufReader) : (Except PErr Response) × BufReader :=
  match readStatusLine r with
  | (.error e, r2) => (.error e, r2)
  | (.ok (proto, status), r2) =>
    match readHeadersAux (r2.conn.length + r2.buf.length + 4) [] r2 with
    | (.error e, r3) => (.error e, r3)
    | (.ok hs, r3) => (.ok ⟨proto, status, hs⟩, r3)

/-! ## ConnRF (dialer.go lines 18-43) -/

/-- Embeds the validation condition of dialer.go lines 34-36. -/
def respOK (resp : Response) : Bool :=
  resp.status == "101 Switching Protocols"
  && toLowerStr (headerGet resp.header "Upgrade") == "websocket"
  && toLowerStr (headerGet resp.header "Connection") == "upgrade"

/-- Embeds the ConnRF state: the underlying connection's pending bytes
and the First flag.  (The retained Request only informs Go's body
framing, which a 101 reply makes empty, so it carries no state here.) -/
structure ConnRF where
  conn : Bytes
  first : Bool
deriving DecidableEq, Repr

inductive RErr where
  | parse (e : PErr)
  | unrecognizedReply
  | eof
deriving DecidableEq, Repr

/-- Outcome of one Read call: bytes returned with the successor state, an
error with the successor state, or a runtime panic (Go slice bounds out
of range). -/
inductive ReadOutcome where
  | ok (bytes : Bytes) (c : ConnRF)
  | err (e : RErr) (c : ConnRF)
  | panicked
deriving DecidableEq, Repr

/-- Embeds c.Conn.Read(b) (dialer.go:42): a pass-through read of at most
`blen` bytes from the underlying connection. -/
def ConnRF.rawRead (c : ConnRF) (blen : Nat) : ReadOutcome :=
  if c.conn.isEmpty then .err .eof c
  else .ok (c.conn.take blen) ⟨c.conn.drop blen, c.first⟩

/-- Embeds ConnRF.Read (dialer.go lines 24-43).  On the first call the
flag is cleared, a bufio reader of size max(len b, 16) (bufio's minimum
is 16) wraps the connection, the response is parsed and validated, and
the still-buffered bytes are drained via b[:reader.Buffered()] — which
panics whenever Buffered() exceeds the capacity len(b).  Later calls
read the underlying connection directly. -/
def ConnRF.read (c : ConnRF) (blen : Nat) : ReadOutcome :=
  if c.first then
    match readResponse ⟨[], c.conn, max blen 16⟩ with
    | (.error e, r) => .err (.parse e) ⟨r.conn, false⟩
    | (.ok resp, r) =>
      if respOK resp then
        if r.buf.length ≤ blen then .ok r.buf ⟨r.conn, false⟩
        else .panicked
      else .err .unrecognizedReply ⟨r.conn, false⟩
  else c.rawRead blen

/-! ## dialhttpUpgrade (dialer.go lines 101-119)

Raw dialing, TLS layering and the request write are external
collaborators (DialSystem, tls, req.Write); the model starts from the
written request, with `wire` the inbound response byte stream. -/

inductive DialOutcome where
  | ok (c : ConnRF)
  | err (e : RErr)
  | panicked
deriving DecidableEq, Repr

/-- Embeds dialer.go lines 106-119: wrap the connection in a ConnRF with
First set; when Ed == 0 issue the zero-length probe read, propagating
its error, and otherwise return at once without touching the wire. -/
def dialhttpUpgrade (ed : Nat) (wire : Bytes) : DialOutcome :=
  let connRF : ConnRF := ⟨wire, true⟩
  if ed = 0 then
    match connRF.read 0 with
    | .ok _ c => .ok c
    | .err e _ => .err e
    | .panicked => .panicked
  else .ok connRF

/-- Handshake validation outcome that the probe read checks: the response
parses (probe buffer size is max 0 16 = 16) and satisfies respOK. -/
def handshakeValidated (wire : Bytes) : Bool :=
  match readResponse ⟨[], wire, 16⟩ with
  | (.ok resp, _) => respOK resp
  | _ => false

/-- Recognizer for the unrecognized-reply failure of a read outcome. -/
def isUnrecognized : ReadOutcome → Bool
  | .err .unrecognizedReply _ => true
  | _ => false

/-! ## Concrete wires used by the claims -/

def wire101 : Bytes :=
  ("HTTP/1.1 101 Switching Protocols\r\nUpgrade: websocket\r\nConnection: upgrade\r\n\r\n").toList

def wire200 : Bytes := ("HTTP/1.1 200 OK\r\n\r\nABCDEFGHIJKLMNOPQRST").toList

def wirePay : Bytes := wire101 ++ ("ABCDEFGHIJKLMNOP").toList

def wireHI : Bytes := wire101 ++ ("HI").toList

def resp101 : Response :=
  ⟨"HTTP/1.1", "101 Switching Protocols",
   [("Upgrade", ["websocket"]), ("Connection", ["upgrade"])]⟩

def resp200 : Response := ⟨"HTTP/1.1", "200 OK", []⟩

/-! ## Helper lemmas -/

/-- Validation passes exactly when the three checked conditions hold. -/
theorem respOK_iff (resp : Response) :
    respOK resp = true ↔
      (resp.status = "101 Switching Protocols"
       ∧ toLowerStr (headerGet resp.header "Upgrade") = "websocket"
       ∧ toLowerStr (headerGet resp.header "Connection") = "upgrade") := by
  simp [respOK, Bool.and_eq_true, and_assoc]

/-- Unfolding of a first read: parse with a reader of size max(len b, 16),
validate, then drain or fail. -/
theorem read_first_eq (wire : Bytes) (blen : Nat) :
    ConnRF.read ⟨wire, true⟩ blen =
      (match readResponse ⟨[], wire, max blen 16⟩ with
       | (.error e, r) => .err (.parse e) ⟨r.conn, false⟩
       | (.ok resp, r) =>
         if respOK resp then
           if r.buf.length ≤ blen then .ok r.buf ⟨r.conn, false⟩
           else .panicked
         else .err .unrecognizedReply ⟨r.conn, false⟩) := rfl

/-- Unfolding of a non-first read: a plain pass-through read. -/
theorem read_notfirst_eq (c : ConnRF) (blen : Nat) (h : c.first = false) :
    ConnRF.read c blen = c.rawRead blen := by
  unfold ConnRF.read
  rw [h]
  simp

/-- Unfolding of a first read when the parse result is known. -/
theorem read_first_ok_eq (wire : Bytes) (blen : Nat) (resp : Response) (r : BufReader)
    (hp : readResponse ⟨[], wire, max blen 16⟩ = (.ok resp, r)) :
    ConnRF.read ⟨wire, true⟩ blen =
      (if respOK resp then
         if r.buf.length ≤ blen then .ok r.buf ⟨r.conn, false⟩
         else .panicked
       else .err .unrecognizedReply ⟨r.conn, false⟩) := by
  rw [read_first_eq, hp]

/-! ## Claim theorems -/

/-- C1 counterexample: on a "200 OK" reply the first read fails with the
unrecognized-reply error, but the SECOND read on the very same connection
succeeds and returns raw bytes from the underlying connection — the
wrapper does behave as a pass-through byte stream after the failure,
because First is cleared before validation runs. -/
theorem c1_counterexample :
    ConnRF.read ⟨wire200, true⟩ 4
      = .err .unrecognizedReply ⟨("MNOPQRST").toList, false⟩
    ∧ ConnRF.read ⟨("MNOPQRST").toList, false⟩ 4
      = .ok ("MNOP").toList ⟨("QRST").toList, false⟩ := by decide

/-- C1 (amended): once the first read has failed validation, the First
flag is cleared and every subsequent read is a direct pass-through read
of the underlying connection (no repetition of the failure and no
re-validation). -/
theorem c1_failed_then_passthrough (wire : Bytes) (blen : Nat) (e : RErr) (c2 : ConnRF)
    (h : ConnRF.read ⟨wire, true⟩ blen = .err e c2) :
    c2.first = false ∧ ∀ blen2, ConnRF.read c2 blen2 = c2.rawRead blen2 := by
  have hf : c2.first = false := by
    rw [read_first_eq] at h
    rcases hE : readResponse ⟨[], wire, max blen 16⟩ with ⟨res, r⟩
    rw [hE] at h
    cases res with
    | error e2 => cases h; rfl
    | ok resp =>
      dsimp only at h
      by_cases hv : respOK resp
      · rw [if_pos hv] at h
        by_cases hb : r.buf.length ≤ blen
        · rw [if_pos hb] at h; cases h
        · rw [if_neg hb] at h; cases h
      · rw [if_neg hv] at h; cases h; rfl
  exact ⟨hf, fun blen2 => read_notfirst_eq c2 blen2 hf⟩

/-- C1 witness: the amended theorem applied to the concrete "200 OK"
wire. -/
theorem c1_witness :
    ConnRF.read ⟨wire200, true⟩ 4 = .err .unrecognizedReply ⟨("MNOPQRST").toList, false⟩
    ∧ (⟨("MNOPQRST").toList, false⟩ : ConnRF).first = false
    ∧ ConnRF.read ⟨("MNOPQRST").toList, false⟩ 6
        = ConnRF.rawRead ⟨("MNOPQRST").toList, false⟩ 6 :=
  ⟨by decide,
   (c1_failed_then_passthrough wire200 4 .unrecognizedReply
      ⟨("MNOPQRST").toList, false⟩ (by decide)).1,
   (c1_failed_then_passthrough wire200 4 .unrecognizedReply
      ⟨("MNOPQRST").toList, false⟩ (by decide)).2 6⟩

/-- C2 (code bug): the configured key "WebSocket-Test" is passed through
http.Header.Add, which MIME-canonicalizes it, so the request's header
set holds "Websocket-Test" and the exact configured casing never
appears. -/
theorem c2_headers_canonicalized :
    buildHeaders [("WebSocket-Test", "v")]
      = [("Websocket-Test", ["v"]), ("Connection", ["upgrade"]), ("Upgrade", ["websocket"])]
    ∧ "WebSocket-Test" ∉ (buildHeaders [("WebSocket-Test", "v")]).map Prod.fst := by decide

/-- C3 counterexample: for the configured path "/a b" the code assigns
the opaque component from pathTrimmed, the string BEFORE the space
replacement, so the opaque component is "a b", not "a:b". -/
theorem c3_counterexample :
    (urlPathParts "/a b").2 ≠ "a:b" ∧ urlPathParts "/a b" ≠ ("", "a:b") := by decide

/-- C3 (amended): for path "/a b" the split does yield exactly 2 parts,
and the request is built with opaque component "a b" (the trimmed
pre-replacement string) while the structural path stays the configured
"/a b" (it is not unset; it is merely ignored once an opaque component is
present). -/
theorem c3_two_part_split :
    (splitColon (replaceFirstSpace (trimPrefixSlash (queryUnescape "/a b").1.toList))).length = 2
    ∧ urlPathParts "/a b" = ("/a b", "a b") := by decide

/-- C4 (code bug): on the zero-length probe read, bufio's 16-byte minimum
buffer can hold post-header bytes that b[:reader.Buffered()] cannot
drain: with a valid 101 reply followed by one payload byte the drain
slice is out of range and the read — and hence the whole non-early-data
dial — panics even though validation succeeded. -/
theorem c4_probe_read_out_of_range :
    ConnRF.read ⟨wire101 ++ ['X'], true⟩ 0 = .panicked
    ∧ dialhttpUpgrade 0 (wire101 ++ ['X']) = .panicked
    ∧ handshakeValidated (wire101 ++ ['X']) = true := by decide

/-- C5: the probe read happens exactly when Ed = 0.  With early data
enabled the dial returns at once with the untouched connection and the
First flag still pending; with Ed = 0 the dial's outcome is exactly the
probe read's outcome, and a successfully returned connection implies the
101 response was fully parsed and validated. -/
theorem c5_probe_iff_ed_zero (ed : Nat) (wire : Bytes) :
    (ed ≠ 0 → dialhttpUpgrade ed wire = .ok ⟨wire, true⟩)
    ∧ (ed = 0 → dialhttpUpgrade ed wire =
        (match ConnRF.read ⟨wire, true⟩ 0 with
         | .ok _ c => .ok c
         | .err e _ => .err e
         | .panicked => .panicked))
    ∧ (∀ c, dialhttpUpgrade 0 wire = .ok c →
        c.first = false ∧ handshakeValidated wire = true) := by
  refine ⟨fun h => by simp [dialhttpUpgrade, h], fun h => by subst h; rfl, fun c h => ?_⟩
  have hd : dialhttpUpgrade 0 wire =
      (match ConnRF.read ⟨wire, true⟩ 0 with
       | .ok _ c => .ok c | .err e _ => .err e | .panicked => .panicked) := rfl
  rw [hd] at h
  cases hr : ConnRF.read ⟨wire, true⟩ 0 with
  | ok bs c2 =>
    rw [hr] at h
    cases h
    rw [read_first_eq] at hr
    rcases hE : readResponse ⟨[], wire, max 0 16⟩ with ⟨res, r⟩
    rw [hE] at hr
    cases res with
    | error e2 => cases hr
    | ok resp =>
      dsimp only at hr
      by_cases hv : respOK resp
      · rw [if_pos hv] at hr
        by_cases hb : r.buf.length ≤ 0
        · rw [if_pos hb] at hr
          cases hr
          refine ⟨rfl, ?_⟩
          rw [show (max 0 16 : Nat) = 16 from by decide] at hE
          unfold handshakeValidated
          rw [hE]
          exact hv
        · rw [if_neg hb] at hr; cases hr
      · rw [if_neg hv] at hr; cases hr
  | err e c2 => rw [hr] at h; cases h
  | panicked => rw [hr] at h; cases h

/-- C5 witness: the theorem applied with early data enabled (ed = 1) and
disabled (ed = 0) on the valid 101 wire. -/
theorem c5_witness :
    (1 ≠ 0)
    ∧ dialhttpUpgrade 1 wire101 = .ok ⟨wire101, true⟩
    ∧ dialhttpUpgrade 0 wire101 = .ok ⟨[], false⟩
    ∧ ((⟨[], false⟩ : ConnRF).first = false ∧ handshakeValidated wire101 = true) :=
  ⟨by decide, (c5_probe_iff_ed_zero 1 wire101).1 (by decide),
   by decide, (c5_probe_iff_ed_zero 0 wire101).2.2 ⟨[], false⟩ (by decide)⟩

/-- C6: given that the response parses, the first read fails with the
unrecognized-reply error exactly when the status line is not
"101 Switching Protocols", or the lowercased Upgrade header is not
"websocket", or the lowercased Connection header is not "upgrade". -/
theorem c6_unrecognized_iff (wire : Bytes) (blen : Nat) (resp : Response) (r : BufReader)
    (hp : readResponse ⟨[], wire, max blen 16⟩ = (.ok resp, r)) :
    isUnrecognized (ConnRF.read ⟨wire, true⟩ blen) = true ↔
      (resp.status ≠ "101 Switching Protocols"
       ∨ toLowerStr (headerGet resp.header "Upgrade") ≠ "websocket"
       ∨ toLowerStr (headerGet resp.header "Connection") ≠ "upgrade") := by
  rw [read_first_ok_eq wire blen resp r hp]
  by_cases hv : respOK resp
  · rw [if_pos hv]
    have hc := (respOK_iff resp).mp hv
    constructor
    · intro hcontra
      by_cases hb : r.buf.length ≤ blen
      · rw [if_pos hb] at hcontra; simp [isUnrecognized] at hcontra
      · rw [if_neg hb] at hcontra; simp [isUnrecognized] at hcontra
    · intro hd
      rcases hd with h1 | h2 | h3
      · exact absurd hc.1 h1
      · exact absurd hc.2.1 h2
      · exact absurd hc.2.2 h3
  · rw [if_neg hv]
    constructor
    · intro _
      have hnc : ¬(resp.status = "101 Switching Protocols"
          ∧ toLowerStr (headerGet resp.header "Upgrade") = "websocket"
          ∧ toLowerStr (headerGet resp.header "Connection") = "upgrade") :=
        fun hcj => hv ((respOK_iff resp).mpr hcj)
      tauto
    · intro _
      simp [isUnrecognized]

/-- C6 witness: the iff applied to the concrete "200 OK" wire, whose
first read does fail with the unrecognized-reply error. -/
theorem c6_witness :
    isUnrecognized (ConnRF.read ⟨wire200, true⟩ 4) = true :=
  (c6_unrecognized_iff wire200 4 resp200
     ⟨("ABCDEFGHIJKL").toList, ("MNOPQRST").toList, 16⟩ (by decide)).mpr
    (by decide)

/-- C7 counterexample: valid 101 reply followed by N = 16 payload bytes,
caller buffer of length 16 ≥ N — yet the first read returns only the 9
payload bytes that the 16-byte-bounded parse fills happened to leave in
the buffered reader, not all 16. -/
theorem c7_counterexample :
    ConnRF.read ⟨wirePay, true⟩ 16
      = .ok ("ABCDEFGHI").toList ⟨("JKLMNOP").toList, false⟩
    ∧ ("ABCDEFGHI").toList ≠ ("ABCDEFGHIJKLMNOP").toList := by decide

/-- C7 (amended): after a validated parse the first read returns exactly
the post-header bytes sitting in the buffered reader and consumes
nothing further from the underlying connection in the same call (the
successor connection state is exactly the parse's); those bytes are all
N payload bytes only when the parse fills captured them, e.g. when the
caller buffer covers the whole response plus payload. -/
theorem c7_drain_buffered_only (wire : Bytes) (blen : Nat) (resp : Response) (r : BufReader)
    (hp : readResponse ⟨[], wire, max blen 16⟩ = (.ok resp, r))
    (hv : respOK resp = true) (hb : r.buf.length ≤ blen) :
    ConnRF.read ⟨wire, true⟩ blen = .ok r.buf ⟨r.conn, false⟩ := by
  rw [read_first_ok_eq wire blen resp r hp, if_pos hv, if_pos hb]

/-- C7 witness: with a buffer of 100 bytes covering the whole 79-byte
wire, the first read returns exactly the N = 2 payload bytes "HI". -/
theorem c7_witness :
    readResponse ⟨[], wireHI, max 100 16⟩ = (.ok resp101, ⟨("HI").toList, [], 100⟩)
    ∧ respOK resp101 = true
    ∧ ((⟨("HI").toList, [], 100⟩ : BufReader).buf.length ≤ 100)
    ∧ ConnRF.read ⟨wireHI, true⟩ 100 = .ok ("HI").toList ⟨[], false⟩ :=
  ⟨by decide, by decide, by decide,
   c7_drain_buffered_only wireHI 100 resp101 ⟨("HI").toList, [], 100⟩
     (by decide) (by decide) (by decide)⟩

/-- C8: for the configured path "/a b:c" the decode/trim/replace/split
pipeline yields exactly 3 parts, the structural path becomes "a" and the
opaque component "b:c". -/
theorem c8_three_part_split :
    (splitColon (replaceFirstSpace (trimPrefixSlash (queryUnescape "/a b:c").1.toList))).length = 3
    ∧ urlPathParts "/a b:c" = ("a", "b:c") := by decide

/-- C9: after a successful first read the First flag is cleared, and
every subsequent read is a direct pass-through read of the underlying
connection — no response is re-parsed and no re-validation happens. -/
theorem c9_validated_passthrough (wire : Bytes) (blen : Nat) (bs : Bytes) (c2 : ConnRF)
    (h : ConnRF.read ⟨wire, true⟩ blen = .ok bs c2) :
    c2.first = false ∧ ∀ blen2, ConnRF.read c2 blen2 = c2.rawRead blen2 := by
  have hf : c2.first = false := by
    rw [read_first_eq] at h
    rcases hE : readResponse ⟨[], wire, max blen 16⟩ with ⟨res, r⟩
    rw [hE] at h
    cases res with
    | error e2 => cases h
    | ok resp =>
      dsimp only at h
      by_cases hv : respOK resp
      · rw [if_pos hv] at h
        by_cases hb : r.buf.length ≤ blen
        · rw [if_pos hb] at h; cases h; rfl
        · rw [if_neg hb] at h; cases h
      · rw [if_neg hv] at h; cases h
  exact ⟨hf, fun blen2 => read_notfirst_eq c2 blen2 hf⟩

/-- C9 witness: the theorem applied after the successful first read on
the valid 101 wire with payload. -/
theorem c9_witness :
    ConnRF.read ⟨wirePay, true⟩ 16 = .ok ("ABCDEFGHI").toList ⟨("JKLMNOP").toList, false⟩
    ∧ (⟨("JKLMNOP").toList, false⟩ : ConnRF).first = false
    ∧ ConnRF.read ⟨("JKLMNOP").toList, false⟩ 4
        = ConnRF.rawRead ⟨("JKLMNOP").toList, false⟩ 4 :=
  ⟨by decide,
   (c9_validated_passthrough wirePay 16 ("ABCDEFGHI").toList
      ⟨("JKLMNOP").toList, false⟩ (by decide)).1,
   (c9_validated_passthrough wirePay 16 ("ABCDEFGHI").toList
      ⟨("JKLMNOP").toList, false⟩ (by decide)).2 4⟩

/-- C10 counterexample: for the configured path "/a%zzb c:d" the percent
decoding fails, and the subsequent steps do NOT run on the undecoded
string (which would have produced path "a%zzb" and opaque "c:d"): the
decoder returns "" on failure, so no branch fires and the URL keeps the
configured path with no opaque component. -/
theorem c10_counterexample :
    (queryUnescape "/a%zzb c:d").2 = false
    ∧ urlPathParts "/a%zzb c:d" = ("/a%zzb c:d", "")
    ∧ urlPathParts "/a%zzb c:d" ≠ ("a%zzb", "c:d") := by decide

/-- C10 (amended): for every configured path whose percent-decoding
fails, request building does not error, but the subsequent steps operate
on the empty string QueryUnescape returned with the error, so neither
the 2-part nor the 3-part branch can fire: the URL keeps the configured
path and no opaque component is set. -/
theorem c10_decode_failure_keeps_path (p : String) (h : (queryUnescape p).2 = false) :
    urlPathParts p = (p, "") := by
  have hp : ¬ p = "" := by
    intro he
    rw [he] at h
    exact absurd h (by decide)
  have h1 : queryUnescape p = ("", false) := by
    unfold queryUnescape at h ⊢
    cases hu : unescapeAux p.toList with
    | some l => rw [hu] at h; simp at h
    | none => rfl
  simp only [urlPathParts]
  rw [if_neg hp, h1]
  rfl

/-- C10 witness: the amended theorem applied to the path "%", whose
decoding fails. -/
theorem c10_witness :
    (queryUnescape "%").2 = false ∧ urlPathParts "%" = ("%", "") :=
  ⟨by decide, c10_decode_failure_keeps_path "%" (by decide)⟩

end HttpUpgrade
